import Mathlib

/-!
# Verification of the `yaml-crypt` cache and crypto-pipeline core

A shallow embedding, in Lean 4, of the two core source files of the
`yaml-crypt` repository:

* `pkg/cache` (the unnamed source file `part_000`): a two-tier
  ("young"/"old") disk-backed cache keyed by truncated SHA-256 content
  hashes, with lookup-with-promotion and at-close generation rotation;
* `pkg/actions/crypto.go`: the worker-pool pipeline (`decryptWorker`,
  `encryptWorker`) that resolves per-value encrypt/decrypt jobs.

Bytes are modelled as `List Nat` with every element kept below 256 by
construction of the operations (the embedding never needs a global
well-formedness invariant).  Go strings are byte sequences, so plaintexts
are `List Nat` too, which makes the Go conversions `[]byte(s)` /
`string(b)` the identity.  Store, filesystem and transform failures are
injected through explicit fault oracles, mirroring the `error` results of
the Go APIs (`bitcask`, `os`, the crypto provider).
-/

/-- The distinguishable error outcomes the embedded operations can report.
`transformE n` stands for a provider decrypt/encrypt failure, with a tag
`n` so that distinct jobs' failures are distinguishable. -/
inductive Err where
  | getE : Err
  | putE : Err
  | syncE : Err
  | mergeE : Err
  | statsE : Err
  | closeE : Err
  | removeE : Err
  | renameE : Err
  | transformE : Nat → Err
deriving DecidableEq, Repr

/-- Byte sequences (Go `[]byte`); each element is a byte value `< 256`. -/
abbrev Bytes := List Nat

/- ## SHA-256 (`crypto/sha256`), executable over `Bytes`

The cache's key derivation calls `sha256.Sum256`; the algorithm of FIPS
180-4 is embedded here over `Nat` with explicit reduction `% 2 ^ 32`. -/

/-- 32-bit truncation modulus. -/
def w32 : Nat := 2 ^ 32

/-- Rotate a 32-bit word right by `n` (for `x < 2 ^ 32`). -/
def rotr (n x : Nat) : Nat := ((x >>> n) ||| (x <<< (32 - n))) % w32

/-- Bitwise complement of a 32-bit word. -/
def not32 (x : Nat) : Nat := x ^^^ 0xffffffff

/-- SHA-256 `Ch` function. -/
def ch32 (e f g : Nat) : Nat := (e &&& f) ^^^ (not32 e &&& g)

/-- SHA-256 `Maj` function. -/
def maj32 (a b c : Nat) : Nat := (a &&& b) ^^^ (a &&& c) ^^^ (b &&& c)

/-- SHA-256 big Σ₀. -/
def bigS0 (x : Nat) : Nat := rotr 2 x ^^^ rotr 13 x ^^^ rotr 22 x

/-- SHA-256 big Σ₁. -/
def bigS1 (x : Nat) : Nat := rotr 6 x ^^^ rotr 11 x ^^^ rotr 25 x

/-- SHA-256 small σ₀. -/
def smallS0 (x : Nat) : Nat := rotr 7 x ^^^ rotr 18 x ^^^ (x >>> 3)

/-- SHA-256 small σ₁. -/
def smallS1 (x : Nat) : Nat := rotr 17 x ^^^ rotr 19 x ^^^ (x >>> 10)

/-- The 64 SHA-256 round constants, in decimal. -/
def shaK : List Nat :=
  [1116352408, 1899447441, 3049323471, 3921009573, 961987163, 1508970993,
   2453635748, 2870763221, 3624381080, 310598401, 607225278, 1426881987,
   1925078388, 2162078206, 2614888103, 3248222580, 3835390401, 4022224774,
   264347078, 604807628, 770255983, 1249150122, 1555081692, 1996064986,
   2554220882, 2821834349, 2952996808, 3210313671, 3336571891, 3584528711,
   113926993, 338241895, 666307205, 773529912, 1294757372, 1396182291,
   1695183700, 1986661051, 2177026350, 2456956037, 2730485921, 2820302411,
   3259730800, 3345764771, 3516065817, 3600352804, 4094571909, 275423344,
   430227734, 506948616, 659060556, 883997877, 958139571, 1322822218,
   1537002063, 1747873779, 1955562222, 2024104815, 2227730452, 2361852424,
   2428436474, 2756734187, 3204031479, 3329325298]

/-- The SHA-256 working state: eight 32-bit words. -/
structure H8 where
  a : Nat
  b : Nat
  c : Nat
  d : Nat
  e : Nat
  f : Nat
  g : Nat
  h : Nat
deriving DecidableEq, Repr

/-- The SHA-256 initial hash value, in decimal. -/
def initH : H8 :=
  ⟨1779033703, 3144134277, 1013904242, 2773480762, 1359893119, 2600822924,
   528734635, 1541459225⟩

/-- One compression round: `kw` is the pair (round constant, schedule word). -/
def shaRound (st : H8) (kw : Nat × Nat) : H8 :=
  let t1 := (st.h + bigS1 st.e + ch32 st.e st.f st.g + kw.1 + kw.2) % w32
  let t2 := (bigS0 st.a + maj32 st.a st.b st.c) % w32
  ⟨(t1 + t2) % w32, st.a, st.b, st.c, (st.d + t1) % w32, st.e, st.f, st.g⟩

/-- Parse a block's bytes into big-endian 32-bit words (4 bytes each). -/
def toWords : List Nat → List Nat
  | b0 :: b1 :: b2 :: b3 :: rest =>
      (((b0 * 256 + b1) * 256 + b2) * 256 + b3) :: toWords rest
  | _ => []

/-- The next message-schedule word, extending a schedule `w` of length ≥ 16. -/
def nextWord (w : List Nat) : Nat :=
  (smallS1 (w.getD (w.length - 2) 0) + w.getD (w.length - 7) 0 +
   smallS0 (w.getD (w.length - 15) 0) + w.getD (w.length - 16) 0) % w32

/-- Extend the 16-word schedule by `n` more words (SHA-256 uses `n = 48`). -/
def extendSchedule : Nat → List Nat → List Nat
  | 0, w => w
  | n + 1, w => extendSchedule n (w ++ [nextWord w])

/-- Add two states word-wise mod `2 ^ 32` (the feed-forward after a block). -/
def addH8 (x y : H8) : H8 :=
  ⟨(x.a + y.a) % w32, (x.b + y.b) % w32, (x.c + y.c) % w32, (x.d + y.d) % w32,
   (x.e + y.e) % w32, (x.f + y.f) % w32, (x.g + y.g) % w32, (x.h + y.h) % w32⟩

/-- Compress one 64-byte block into the state. -/
def compressBlock (st : H8) (block : List Nat) : H8 :=
  let w := extendSchedule 48 (toWords block)
  addH8 st ((shaK.zip w).foldl shaRound st)

/-- Fold the compression over `n` consecutive 64-byte blocks of `msg`. -/
def processBlocks : Nat → H8 → List Nat → H8
  | 0, st, _ => st
  | n + 1, st, msg => processBlocks n (compressBlock st (msg.take 64)) (msg.drop 64)

/-- A natural number as 8 big-endian bytes (the padded bit-length field). -/
def u64be (x : Nat) : List Nat :=
  [x >>> 56 % 256, x >>> 48 % 256, x >>> 40 % 256, x >>> 32 % 256,
   x >>> 24 % 256, x >>> 16 % 256, x >>> 8 % 256, x % 256]

/-- A 32-bit word as 4 big-endian bytes (digest serialization). -/
def u32be (x : Nat) : List Nat :=
  [x >>> 24 % 256, x >>> 16 % 256, x >>> 8 % 256, x % 256]

/-- SHA-256 padding: `0x80`, zeros to 56 mod 64, then the 64-bit bit length. -/
def padMessage (m : Bytes) : Bytes :=
  m ++ (0x80 :: List.replicate ((119 - m.length % 64) % 64) 0)
    ++ u64be ((8 * m.length) % 2 ^ 64)

/-- The full digest: compress all padded blocks, serialize the 8 state words
big-endian — `sha256.Sum256` of `crypto/sha256`. -/
def sha256 (m : Bytes) : Bytes :=
  let p := padMessage m
  let st := processBlocks (p.length / 64) initH p
  u32be st.a ++ u32be st.b ++ u32be st.c ++ u32be st.d ++
  u32be st.e ++ u32be st.f ++ u32be st.g ++ u32be st.h

/- ## Key derivation (`hash`, `plaintextToKey`, `ciphertextToKey`)

The source names of the tag constants are `plaintextKeyPrefix = 'p'` and
`ciphertextKeyPrefix = 'c'`; they are called `plaintextKeyTag` /
`ciphertextKeyTag` here. -/

/-- `hashLength = 16`: length to which hashed keys are truncated. -/
def hashLength : Nat := 16

/-- `'p'`, the tag byte for keys that look up a ciphertext by plaintext. -/
def plaintextKeyTag : Nat := 112

/-- `'c'`, the tag byte for keys that look up a plaintext by ciphertext. -/
def ciphertextKeyTag : Nat := 99

/-- `hash`: SHA-256 truncated to `hashLength` bytes. -/
def hashBytes (data : Bytes) : Bytes := (sha256 data).take hashLength

/-- `ciphertextToKey`: the tag byte `'c'` followed by the truncated hash.
The source allocates `key := make([]byte, 1, hashLength+1)`, sets `key[0]`
and appends the hash, i.e. builds exactly `'c' :: hash data`. -/
def ciphertextToKey (data : Bytes) : Bytes := ciphertextKeyTag :: hashBytes data

/-- `plaintextToKey`: the tag byte `'p'` followed by the truncated hash of
the plaintext's bytes (`[]byte(data)` is the identity on the byte model). -/
def plaintextToKey (data : Bytes) : Bytes := plaintextKeyTag :: hashBytes data

/- ## The bitcask store model

A store is an association list (front entry wins, so a fresh `Put` shadows
an older binding: last-write-wins) plus fault oracles standing for the
`error` results bitcask can report: keys on which `Get` fails, keys on
which `Put` fails, and whether `Sync` fails. -/

/-- One persistent key-value store (`*bitcask.Bitcask`). -/
structure Store where
  entries : List (Bytes × Bytes)
  getFault : List Bytes
  putFault : List Bytes
  syncFault : Bool
deriving DecidableEq, Repr

/-- The first binding for a key, if any. -/
def Store.findKey (s : Store) (k : Bytes) : Option Bytes :=
  (s.entries.find? (fun e => e.1 == k)).map (fun e => e.2)

/-- `Has`: key-existence check. -/
def Store.Has (s : Store) (k : Bytes) : Bool := (s.findKey k).isSome

/-- `Get`: read a key's value; on an injected fault, an empty value and an
error, as a failed bitcask read yields. -/
def Store.Get (s : Store) (k : Bytes) : Bytes × Option Err :=
  if s.getFault.contains k then ([], some Err.getE)
  else ((s.findKey k).getD [], none)

/-- `Put`: bind `k ↦ v` (shadowing any older binding); on an injected
fault, leave the store unchanged and report an error. -/
def Store.Put (s : Store) (k v : Bytes) : Store × Option Err :=
  if s.putFault.contains k then (s, some Err.putE)
  else ({ s with entries := (k, v) :: s.entries }, none)

/-- `Sync`: durably flush; fails exactly when the fault oracle says so. -/
def Store.Sync (s : Store) : Option Err :=
  if s.syncFault then some Err.syncE else none

/-- A store with no entries and no injected faults. -/
def emptyStore : Store := ⟨[], [], [], false⟩

/-- The in-memory cache state: the read/write "young" store and the
read-only "old" store (the path fields only matter to `Close`, modelled
separately below against a two-path filesystem). -/
structure Cache where
  young : Store
  old : Store
deriving DecidableEq, Repr

/-- `Cache.Add`: put `plaintextToKey p ↦ E`, then `ciphertextToKey E ↦ p`,
into young, returning early on a failed put, then `Sync` young.  The Go
method mutates `c` through a pointer; here the updated cache is returned. -/
def Cache.Add (c : Cache) (plaintext ciphertext : Bytes) : Cache × Option Err :=
  let (young1, err1) := c.young.Put (plaintextToKey plaintext) ciphertext
  match err1 with
  | some e => ({ c with young := young1 }, some e)
  | none =>
    let (young2, err2) := young1.Put (ciphertextToKey ciphertext) plaintext
    match err2 with
    | some e => ({ c with young := young2 }, some e)
    | none => ({ c with young := young2 }, young2.Sync)

/-- `Cache.Encrypt`: look up the ciphertext for a plaintext.  The first
statement of the Go function is `return []byte{}, false, nil`, executed
unconditionally, so the function always reports a miss; the remaining
statements are unreachable and are transcribed separately as
`Cache.EncryptUnreachable`. -/
def Cache.Encrypt (c : Cache) (plaintext : Bytes) :
    Bytes × Bool × Option Err × Cache :=
  ([], false, none, c)

/-- The unreachable remainder of `Cache.Encrypt` (everything after its
unconditional first `return`): the young lookup, the old lookup with
promotion via `Add`, and the miss case. -/
def Cache.EncryptUnreachable (c : Cache) (plaintext : Bytes) :
    Bytes × Bool × Option Err × Cache :=
  let key := plaintextToKey plaintext
  if c.young.Has key then
    let (value, err) := c.young.Get key
    (value, true, err, c)
  else if c.old.Has key then
    let (ciphertext, err) := c.old.Get key
    match err with
    | some e => ([], false, some e, c)
    | none =>
      let (c2, err2) := c.Add plaintext ciphertext
      (ciphertext, true, err2, c2)
  else ([], false, none, c)

/-- `Cache.Decrypt`: look up the plaintext for a ciphertext.  Young hit:
return it.  Old hit: return it and promote the pair into young via `Add`,
reporting `Add`'s error alongside `found = true`.  Miss: `("", false, nil)`.
(`string(value)` is the identity on the byte model.) -/
def Cache.Decrypt (c : Cache) (ciphertext : Bytes) :
    Bytes × Bool × Option Err × Cache :=
  let key := ciphertextToKey ciphertext
  if c.young.Has key then
    let (value, err) := c.young.Get key
    (value, true, err, c)
  else if c.old.Has key then
    let (value, err) := c.old.Get key
    match err with
    | some e => ([], false, some e, c)
    | none =>
      let plaintext := value
      let (c2, err2) := c.Add plaintext ciphertext
      (plaintext, true, err2, c2)
  else ([], false, none, c)


/- ## `Cache.Close` and generation rotation

`Close` merges young, reads its size statistic, closes young then old
(each fallible call's outcome is an oracle in `CloseEnv`), reports the
deferred merge/stats errors, and — when young's size exceeds
`youngCacheSize` — runs the rotation: `os.RemoveAll(c.oldPath)` followed
by `os.Rename(c.oldPath, c.youngPath)`. The filesystem is modelled by the
contents found at the two cache paths. -/

/-- `youngCacheSize`: the Go initializer is `(1024 ^ 2) * 100`, and Go's
`^` is bitwise XOR, so the value is `(1024 xor 2) * 100 = 102600`, not the
`100MiB` the adjacent comment announces. -/
def youngCacheSize : Int := (Int.ofNat (1024 ^^^ 2)) * 100

/-- What the filesystem holds at the two cache paths: `none` means the
path does not exist; `some d` is an opaque directory content. -/
structure FS where
  youngDir : Option Bytes
  oldDir : Option Bytes
deriving DecidableEq, Repr

/-- `os.RemoveAll(c.oldPath)`: deletes the old path (succeeds whether or
not the path exists); a failure is injected via the `removeErr` oracle in
`CloseEnv` before this runs. -/
def FS.removeAllOld (fs : FS) : FS := { fs with oldDir := none }

/-- `os.Rename(c.oldPath, c.youngPath)` — source `c.oldPath`, destination
`c.youngPath`, as the source literally calls it.  POSIX `rename` fails
when the source path does not exist, and when the destination is an
existing non-empty directory; on success the source directory moves to
the destination. -/
def FS.renameOldToYoung (fs : FS) : FS × Option Err :=
  match fs.oldDir with
  | none => (fs, some Err.renameE)
  | some d =>
    match fs.youngDir with
    | some _ => (fs, some Err.renameE)
    | none => (⟨some d, none⟩, none)

/-- The fallible calls `Close` makes, as oracles: the merge error, the
stats error and the reported size, the two store-close errors, and the
`RemoveAll` error. -/
structure CloseEnv where
  mergeErr : Option Err
  statsErr : Option Err
  statsSize : Int
  youngCloseErr : Option Err
  oldCloseErr : Option Err
  removeErr : Option Err
  fs : FS
deriving DecidableEq, Repr

/-- What a run of `Close` did: the returned error, whether `c.old.Close()`
was reached, whether the size-check branch was entered, and the resulting
filesystem. -/
structure CloseOut where
  err : Option Err
  oldCloseAttempted : Bool
  rotationTaken : Bool
  fs : FS
deriving DecidableEq, Repr

/-- `Cache.Close`, statement by statement: merge young and read its stats
(errors captured, handled later); close young, returning its error at
once if non-nil; close old likewise; then report the deferred merge and
stats errors; finally, if `stats.Size > youngCacheSize`, remove the old
path and rename the old path onto the young path. -/
def CloseRun (env : CloseEnv) : CloseOut :=
  match env.youngCloseErr with
  | some e => ⟨some e, false, false, env.fs⟩
  | none =>
    match env.oldCloseErr with
    | some e => ⟨some e, true, false, env.fs⟩
    | none =>
      match env.mergeErr with
      | some e => ⟨some e, true, false, env.fs⟩
      | none =>
        match env.statsErr with
        | some e => ⟨some e, true, false, env.fs⟩
        | none =>
          if env.statsSize > youngCacheSize then
            match env.removeErr with
            | some e => ⟨some e, true, true, env.fs⟩
            | none =>
              let fs1 := env.fs.removeAllOld
              let (fs2, rerr) := fs1.renameOldToYoung
              ⟨rerr, true, true, fs2⟩
          else ⟨none, true, false, env.fs⟩

/- ## The pipeline workers (`decryptWorker`, `encryptWorker`)

A worker receives jobs from a channel and, per job, either reuses the
existing output (when it is present and `Compare` accepts it) or invokes
the provider transform, then commits via `ReplaceNode` when the error
variable is nil, and sends the error variable on the result channel.
`var err error` is declared OUTSIDE the `for job := range jobs` loop, so
the variable carries over between iterations.  The collaborators
(`Compare`, `Decrypt`/`Encrypt` on the provider) are oracles recorded on
the job. -/

/-- A `decryptWorker` job: whether `job.d != nil`, what
`job.e.Compare(job.d)` returns, and the error result of
`job.e.Decrypt(*p, tag)` (`none` = success). -/
structure DJob where
  hasD : Bool
  cmp : Bool
  resolveErr : Option Err
deriving DecidableEq, Repr

/-- An `encryptWorker` job: whether `job.e != nil`, what
`job.e.Compare(job.d)` returns, and the error result of
`job.d.Encrypt(*p)`. -/
structure EJob where
  hasE : Bool
  cmp : Bool
  resolveErr : Option Err
deriving DecidableEq, Repr

/-- What one loop iteration did: the signal sent on the error channel,
whether the provider transform was invoked, and whether `ReplaceNode`
ran. -/
structure StepOut where
  signal : Option Err
  transformed : Bool
  committed : Bool
deriving DecidableEq, Repr

/-- The value of the carried `err` variable after one `decryptWorker`
iteration: untouched on the reuse branch (`job.d != nil &&
job.e.Compare(job.d)`), else overwritten by the transform's result. -/
def dErrStep (err : Option Err) (j : DJob) : Option Err :=
  if j.hasD && j.cmp then err else j.resolveErr

/-- The value of the carried `err` variable after one `encryptWorker`
iteration. -/
def eErrStep (err : Option Err) (j : EJob) : Option Err :=
  if j.hasE && j.cmp then err else j.resolveErr

/-- One iteration of `decryptWorker`'s loop, from the carried value of
`err`: reuse when `job.d != nil && job.e.Compare(job.d)` (leaving `err`
untouched and skipping the transform), else `job.d, err =
job.e.Decrypt(*p, tag)`; then `ReplaceNode` iff `err == nil`;
`errs <- err`.  Returns the new carried `err` and the iteration's
observables. -/
def dStep (err : Option Err) (j : DJob) : Option Err × StepOut :=
  let err2 := dErrStep err j
  (err2, ⟨err2, !(j.hasD && j.cmp), err2.isNone⟩)

/-- One iteration of `encryptWorker`'s loop; identical shape, with the
reuse condition `job.e != nil && job.e.Compare(job.d)` and the transform
`job.d.Encrypt(*p)`. -/
def eStep (err : Option Err) (j : EJob) : Option Err × StepOut :=
  let err2 := eErrStep err j
  (err2, ⟨err2, !(j.hasE && j.cmp), err2.isNone⟩)

/-- `decryptWorker`'s loop over the sequence of jobs it receives, from a
carried error value. -/
def dRunFrom (err : Option Err) : List DJob → List StepOut
  | [] => []
  | j :: rest =>
    let (e2, out) := dStep err j
    out :: dRunFrom e2 rest

/-- `encryptWorker`'s loop over the sequence of jobs it receives. -/
def eRunFrom (err : Option Err) : List EJob → List StepOut
  | [] => []
  | j :: rest =>
    let (e2, out) := eStep err j
    out :: eRunFrom e2 rest

/-- A whole `decryptWorker` run: `var err error` starts at nil. -/
def decryptWorkerRun (jobs : List DJob) : List StepOut := dRunFrom none jobs

/-- A whole `encryptWorker` run: `var err error` starts at nil. -/
def encryptWorkerRun (jobs : List EJob) : List StepOut := eRunFrom none jobs

/-- The `StepOut` used as the out-of-range default for indexed access. -/
def noStep : StepOut := ⟨none, false, false⟩

/- ## Theorems -/

/-- The digest always has exactly 32 bytes. -/
theorem sha256_length (m : Bytes) : (sha256 m).length = 32 := by
  simp [sha256, u32be]

/-- C8: for every payload, the derived cache keys are exactly the
one-byte direction tag followed by the first 16 bytes of the SHA-256
digest of the payload, so both keys have fixed length 17; derivation is a
total Lean function of the payload, hence deterministic and total over
all byte sequences. -/
theorem cacheKey_shape (payload : Bytes) :
    plaintextToKey payload = plaintextKeyTag :: (sha256 payload).take 16 ∧
    ciphertextToKey payload = ciphertextKeyTag :: (sha256 payload).take 16 ∧
    (plaintextToKey payload).length = 17 ∧
    (ciphertextToKey payload).length = 17 := by
  refine ⟨rfl, rfl, ?_, ?_⟩ <;>
    simp [plaintextToKey, ciphertextToKey, hashBytes, hashLength, sha256_length]

/-- C9: the young-cache size threshold is exactly 102600 — the Go
initializer `(1024 ^ 2) * 100` is bitwise XOR, not exponentiation, so it
is `1026 * 100`, not the 100 MiB (`104857600`) announced by the adjacent
comment — and on every `Close` that reaches the size check (no close,
merge or stats failure), the rotation branch is entered if and only if
the young store's reported size is strictly greater than 102600. -/
theorem youngCacheSize_is_102600 (env : CloseEnv)
    (h1 : env.youngCloseErr = none) (h2 : env.oldCloseErr = none)
    (h3 : env.mergeErr = none) (h4 : env.statsErr = none) :
    youngCacheSize = 102600 ∧ youngCacheSize ≠ 100 * 1024 * 1024 ∧
    ((CloseRun env).rotationTaken = true ↔ env.statsSize > 102600) := by
  obtain ⟨me, se, sz, ye, oe, re, fs⟩ := env
  simp only at h1 h2 h3 h4
  subst h1 h2 h3 h4
  refine ⟨by decide, by decide, ?_⟩
  have hval : youngCacheSize = 102600 := by decide
  simp only [CloseRun, hval]
  by_cases hsz : sz > 102600
  · simp only [if_pos hsz]
    cases re <;> simp [hsz]
  · simp [if_neg hsz, hsz]

/-- Witness for C9 at a concrete environment: size 102601 exceeds the
threshold, so the rotation branch is entered. -/
theorem youngCacheSize_is_102600_witness :
    youngCacheSize = 102600 ∧ youngCacheSize ≠ 100 * 1024 * 1024 ∧
    ((CloseRun ⟨none, none, 102601, none, none, none, ⟨some [1], some [2]⟩⟩).rotationTaken
      = true ↔ (102601 : Int) > 102600) :=
  youngCacheSize_is_102600 ⟨none, none, 102601, none, none, none, ⟨some [1], some [2]⟩⟩
    rfl rfl rfl rfl

/-- Counterexample to C4 at a concrete environment: when closing the
young store fails, `Close` returns that error at once and never reaches
`c.old.Close()` — the old store's close is not attempted, contrary to the
claim that both stores are always attempted on the failure path. -/
theorem close_skips_old_on_young_failure :
    (CloseRun ⟨none, none, 0, some Err.closeE, none, none, ⟨none, none⟩⟩).err
        = some Err.closeE ∧
    (CloseRun ⟨none, none, 0, some Err.closeE, none, none, ⟨none, none⟩⟩).oldCloseAttempted
        = false := by
  decide

/-- C4 amended: `Close` attempts to close the old store exactly when
closing the young store succeeded; when the young close fails, that error
is returned immediately and the old store's close is skipped (only the
merge and stats errors are deferred past the closes). -/
theorem close_old_attempt_iff_young_ok (env : CloseEnv) :
    (CloseRun env).oldCloseAttempted = env.youngCloseErr.isNone ∧
    (∀ e, env.youngCloseErr = some e → (CloseRun env).err = some e) := by
  obtain ⟨me, se, sz, ye, oe, re, fs⟩ := env
  cases ye with
  | some e => simp [CloseRun]
  | none =>
    refine ⟨?_, by simp⟩
    cases oe <;> cases me <;> cases se <;> simp only [CloseRun, Option.isNone_none]
    by_cases hsz : sz > youngCacheSize
    · simp only [if_pos hsz]
      cases re with
      | some e => simp
      | none =>
        obtain ⟨yd, od⟩ := fs
        cases od <;> cases yd <;> simp [FS.renameOldToYoung, FS.removeAllOld]
    · simp [if_neg hsz]

/-- Witness for C4's amended theorem at a concrete failing environment. -/
theorem close_old_attempt_iff_young_ok_witness :
    (CloseRun ⟨none, none, 7, some Err.closeE, none, none, ⟨none, some [1]⟩⟩).oldCloseAttempted
        = (some Err.closeE : Option Err).isNone ∧
    (∀ e, (some Err.closeE : Option Err) = some e →
      (CloseRun ⟨none, none, 7, some Err.closeE, none, none, ⟨none, some [1]⟩⟩).err = some e) :=
  close_old_attempt_iff_young_ok ⟨none, none, 7, some Err.closeE, none, none, ⟨none, some [1]⟩⟩

/-- C2 refuted at a concrete state (code bug): with young's size 102601
above the threshold, young contents `[1, 2, 3]` and an existing old
directory, the rotation branch removes the old path and then calls
`os.Rename(c.oldPath, c.youngPath)` — source and destination inverted —
which fails because the just-removed old path no longer exists.  The
young contents stay at the young path, the old path ends up empty, and
`Close` reports a rename error: nothing formerly young is retrievable
from the old tier afterwards. -/
theorem rotation_leaves_old_empty :
    (CloseRun ⟨none, none, 102601, none, none, none, ⟨some [1, 2, 3], some [9]⟩⟩).rotationTaken
        = true ∧
    (CloseRun ⟨none, none, 102601, none, none, none, ⟨some [1, 2, 3], some [9]⟩⟩).fs
        = ⟨some [1, 2, 3], none⟩ ∧
    (CloseRun ⟨none, none, 102601, none, none, none, ⟨some [1, 2, 3], some [9]⟩⟩).err
        = some Err.renameE := by
  decide

/-- A concrete cache whose young store holds the ciphertext `[7]` for the
empty plaintext (exactly what `Add [] [7]` writes first). -/
def c1cache : Cache :=
  ⟨⟨[(plaintextToKey [], [7])], [], [], false⟩, emptyStore⟩

/-- C1 refuted at a concrete state (code bug): the plaintext's key is
present in the young store, yet `Cache.Encrypt` reports a miss — its
first statement is an unconditional `return []byte{}, false, nil`, so the
lookup logic below it never runs.  The transcription of that unreachable
logic, `Cache.EncryptUnreachable`, would have returned the stored
ciphertext with `found = true`. -/
theorem encrypt_always_misses :
    c1cache.young.Has (plaintextToKey []) = true ∧
    c1cache.Encrypt [] = ([], false, none, c1cache) ∧
    c1cache.EncryptUnreachable [] = ([7], true, none, c1cache) := by
  refine ⟨?_, rfl, ?_⟩ <;>
    simp [c1cache, Cache.EncryptUnreachable, Store.Has, Store.findKey, Store.Get]

/-- The cache produced by `Add [] [7]` on a fresh (empty, fault-free)
cache. -/
def c3cache : Cache := ((⟨emptyStore, emptyStore⟩ : Cache).Add [] [7]).1

/-- C3 refuted at a concrete pair (code bug): after a successful
`Add [] [7]`, `Decrypt [7]` does return `([], found = true, nil)` as the
round-trip property demands, but `Encrypt []` returns
`([], found = false, nil)` instead of `([7], found = true)` because of
the unconditional early return that makes its lookup logic dead code. -/
theorem roundTrip_encrypt_half_broken :
    ((⟨emptyStore, emptyStore⟩ : Cache).Add [] [7]).2 = none ∧
    c3cache.Decrypt [7] = ([], true, none, c3cache) ∧
    c3cache.Encrypt [] = ([], false, none, c3cache) ∧
    (c3cache.Encrypt []).1 ≠ [7] ∧ (c3cache.Encrypt []).2.1 ≠ true := by
  refine ⟨?_, ?_, rfl, by decide, by decide⟩
  · simp [Cache.Add, Store.Put, emptyStore, Store.Sync]
  · simp [c3cache, Cache.Add, Store.Put, emptyStore, Store.Sync, Cache.Decrypt,
      Store.Has, Store.findKey, Store.Get, List.find?]

/-- C6: for a ciphertext whose key is present only in the old store,
`Decrypt` reports `found = true` with no error, and — because the hit was
promoted into young via `Add` — a subsequent lookup consulting the young
store alone (old detached, here replaced by an empty store) again reports
`found = true` for the same key.  Fault-free stores: no injected put,
sync or get failures. -/
theorem decrypt_promotes (c : Cache) (E p : Bytes)
    (hy : c.young.Has (ciphertextToKey E) = false)
    (ho : c.old.findKey (ciphertextToKey E) = some p)
    (hog : c.old.getFault = [])
    (hyp : c.young.putFault = [])
    (hys : c.young.syncFault = false) :
    (c.Decrypt E).1 = p ∧ (c.Decrypt E).2.1 = true ∧ (c.Decrypt E).2.2.1 = none ∧
    ((Cache.mk (c.Decrypt E).2.2.2.young emptyStore).Decrypt E).2.1 = true := by
  have hhas : c.old.Has (ciphertextToKey E) = true := by
    simp [Store.Has, ho]
  have hget : c.old.Get (ciphertextToKey E) = (p, none) := by
    simp [Store.Get, hog, ho]
  have hmain : c.Decrypt E = (p, true, none,
      ⟨⟨(ciphertextToKey E, p) :: (plaintextToKey p, E) :: c.young.entries,
        c.young.getFault, c.young.putFault, c.young.syncFault⟩, c.old⟩) := by
    simp [Cache.Decrypt, hy, hhas, hget, Cache.Add, Store.Put, hyp, Store.Sync, hys]
  rw [hmain]
  refine ⟨rfl, rfl, rfl, ?_⟩
  simp [Cache.Decrypt, Store.Has, Store.findKey]

/-- Witness for C6: the key of ciphertext `[7]` is present only in the
old store (bound to plaintext `[3]`); the lookup finds it and the
promoted copy is found by a young-only lookup. -/
theorem decrypt_promotes_witness :
    ((Cache.mk emptyStore ⟨[(ciphertextToKey [7], [3])], [], [], false⟩).Decrypt [7]).1 = [3] ∧
    ((Cache.mk emptyStore ⟨[(ciphertextToKey [7], [3])], [], [], false⟩).Decrypt [7]).2.1 = true ∧
    ((Cache.mk emptyStore ⟨[(ciphertextToKey [7], [3])], [], [], false⟩).Decrypt [7]).2.2.1 = none ∧
    ((Cache.mk ((Cache.mk emptyStore ⟨[(ciphertextToKey [7], [3])], [], [], false⟩).Decrypt
        [7]).2.2.2.young emptyStore).Decrypt [7]).2.1 = true :=
  decrypt_promotes (Cache.mk emptyStore ⟨[(ciphertextToKey [7], [3])], [], [], false⟩) [7] [3]
    (by simp [emptyStore, Store.Has, Store.findKey])
    (by simp [Store.findKey])
    rfl rfl rfl

/-- C10: for a ciphertext whose key is absent from young but present in
old, when the promotion write fails (here: the young store's put fault is
set for the plaintext key `Add` writes first), `Decrypt` still returns
the plaintext read from old together with `found = true` and the non-nil
promotion error. -/
theorem decrypt_reports_promotion_error (c : Cache) (E p : Bytes)
    (hy : c.young.Has (ciphertextToKey E) = false)
    (ho : c.old.findKey (ciphertextToKey E) = some p)
    (hog : c.old.getFault = [])
    (hfail : c.young.putFault.contains (plaintextToKey p) = true) :
    (c.Decrypt E).1 = p ∧ (c.Decrypt E).2.1 = true ∧
    (c.Decrypt E).2.2.1 = some Err.putE := by
  have hhas : c.old.Has (ciphertextToKey E) = true := by
    simp [Store.Has, ho]
  have hget : c.old.Get (ciphertextToKey E) = (p, none) := by
    simp [Store.Get, hog, ho]
  have hmem : plaintextToKey p ∈ c.young.putFault := by simpa using hfail
  simp [Cache.Decrypt, hy, hhas, hget, Cache.Add, Store.Put, hmem]

/-- Witness for C10: old holds the pair, young's put fault is set for the
plaintext key, and the caller receives `([3], true, some putE)`. -/
theorem decrypt_reports_promotion_error_witness :
    ((Cache.mk ⟨[], [], [plaintextToKey [3]], false⟩
        ⟨[(ciphertextToKey [7], [3])], [], [], false⟩).Decrypt [7]).1 = [3] ∧
    ((Cache.mk ⟨[], [], [plaintextToKey [3]], false⟩
        ⟨[(ciphertextToKey [7], [3])], [], [], false⟩).Decrypt [7]).2.1 = true ∧
    ((Cache.mk ⟨[], [], [plaintextToKey [3]], false⟩
        ⟨[(ciphertextToKey [7], [3])], [], [], false⟩).Decrypt [7]).2.2.1 = some Err.putE :=
  decrypt_reports_promotion_error
    (Cache.mk ⟨[], [], [plaintextToKey [3]], false⟩
      ⟨[(ciphertextToKey [7], [3])], [], [], false⟩) [7] [3]
    (by simp [Store.Has, Store.findKey])
    (by simp [Store.findKey])
    rfl
    (by simp)

/-- A `decryptWorker` run emits one output record per job received. -/
theorem dRunFrom_length (jobs : List DJob) :
    ∀ err, (dRunFrom err jobs).length = jobs.length := by
  induction jobs with
  | nil => intro err; rfl
  | cons j rest ih => intro err; simp [dRunFrom, dStep, ih]

/-- An `encryptWorker` run emits one output record per job received. -/
theorem eRunFrom_length (jobs : List EJob) :
    ∀ err, (eRunFrom err jobs).length = jobs.length := by
  induction jobs with
  | nil => intro err; rfl
  | cons j rest ih => intro err; simp [eRunFrom, eStep, ih]

/-- The signal a `decryptWorker` sends for its `i`-th job is the carried
error variable folded through the first `i + 1` jobs. -/
theorem dRunFrom_signal (jobs : List DJob) :
    ∀ err i, i < jobs.length →
      ((dRunFrom err jobs).getD i noStep).signal
        = (jobs.take (i + 1)).foldl dErrStep err := by
  induction jobs with
  | nil => intro err i h; exact absurd h (by simp)
  | cons j rest ih =>
    intro err i h
    cases i with
    | zero => simp [dRunFrom, dStep]
    | succ n =>
      have hn : n < rest.length := by simpa using h
      simpa [dRunFrom, dStep] using ih (dErrStep err j) n hn

/-- The signal an `encryptWorker` sends for its `i`-th job is the carried
error variable folded through the first `i + 1` jobs. -/
theorem eRunFrom_signal (jobs : List EJob) :
    ∀ err i, i < jobs.length →
      ((eRunFrom err jobs).getD i noStep).signal
        = (jobs.take (i + 1)).foldl eErrStep err := by
  induction jobs with
  | nil => intro err i h; exact absurd h (by simp)
  | cons j rest ih =>
    intro err i h
    cases i with
    | zero => simp [eRunFrom, eStep]
    | succ n =>
      have hn : n < rest.length := by simpa using h
      simpa [eRunFrom, eStep] using ih (eErrStep err j) n hn

/-- Counterexample to C5 at a concrete two-job sequence: the first job
fails its transform with `transformE 1`; the second job takes the reuse
branch (its `transformed` flag is `false`, so no transform ran and no
error was encountered resolving it, and its own `resolveErr` is `none`),
yet the worker re-sends the FIRST job's error as the second signal,
because `var err error` is declared outside the loop.  The claim that
every signal is nil or the error of that same job is therefore false. -/
theorem stale_error_resent :
    decryptWorkerRun [⟨true, false, some (Err.transformE 1)⟩, ⟨true, true, none⟩] =
      [⟨some (Err.transformE 1), true, false⟩, ⟨some (Err.transformE 1), false, false⟩] ∧
    ((decryptWorkerRun [⟨true, false, some (Err.transformE 1)⟩, ⟨true, true, none⟩]).getD 1
        noStep).transformed = false ∧
    ((decryptWorkerRun [⟨true, false, some (Err.transformE 1)⟩, ⟨true, true, none⟩]).getD 1
        noStep).signal ≠ none := by
  decide

/-- C5 amended: each worker sends exactly one result signal per job
received, but the signal is the worker's carried error variable — the
fold of the per-iteration error transition over the jobs so far — rather
than an error tied to that same job: a job resolved on the reuse branch
after an earlier failed transform re-sends the earlier job's error.  For
a job that invokes the transform the signal is that job's own result,
since the fold's last step overwrites the variable. -/
theorem worker_one_signal_per_job (djobs : List DJob) (ejobs : List EJob) :
    (decryptWorkerRun djobs).length = djobs.length ∧
    (encryptWorkerRun ejobs).length = ejobs.length ∧
    (∀ i, i < djobs.length →
      ((decryptWorkerRun djobs).getD i noStep).signal
        = (djobs.take (i + 1)).foldl dErrStep none) ∧
    (∀ i, i < ejobs.length →
      ((encryptWorkerRun ejobs).getD i noStep).signal
        = (ejobs.take (i + 1)).foldl eErrStep none) :=
  ⟨dRunFrom_length djobs none, eRunFrom_length ejobs none,
   dRunFrom_signal djobs none, eRunFrom_signal ejobs none⟩

/-- Witness for C5's amended theorem at concrete one-job sequences. -/
theorem worker_one_signal_per_job_witness :
    (decryptWorkerRun [⟨true, false, some (Err.transformE 3)⟩]).length = 1 ∧
    ((decryptWorkerRun [⟨true, false, some (Err.transformE 3)⟩]).getD 0 noStep).signal
      = ([(⟨true, false, some (Err.transformE 3)⟩ : DJob)].take 1).foldl dErrStep none ∧
    ((encryptWorkerRun [⟨false, true, none⟩]).getD 0 noStep).signal
      = ([(⟨false, true, none⟩ : EJob)].take 1).foldl eErrStep none :=
  ⟨(worker_one_signal_per_job [⟨true, false, some (Err.transformE 3)⟩]
      [⟨false, true, none⟩]).1,
   (worker_one_signal_per_job [⟨true, false, some (Err.transformE 3)⟩]
      [⟨false, true, none⟩]).2.2.1 0 (by decide),
   (worker_one_signal_per_job [⟨true, false, some (Err.transformE 3)⟩]
      [⟨false, true, none⟩]).2.2.2 0 (by decide)⟩

/-- A worker whose carried error is nil and whose every job takes the
reuse branch never transforms and always commits. -/
theorem dRunFrom_all_reuse :
    ∀ jobs : List DJob, (∀ j ∈ jobs, j.hasD = true ∧ j.cmp = true) →
      ∀ o ∈ dRunFrom none jobs, o.transformed = false ∧ o.committed = true := by
  intro jobs
  induction jobs with
  | nil => intro _ o ho; simp [dRunFrom] at ho
  | cons j rest ih =>
    intro h o ho
    obtain ⟨h1, h2⟩ := h j (List.mem_cons_self j rest)
    simp only [dRunFrom, dStep, dErrStep, h1, h2, Bool.and_self, if_pos,
      Bool.not_true, Option.isNone_none, List.mem_cons] at ho
    rcases ho with ho | ho
    · subst ho; exact ⟨rfl, rfl⟩
    · exact ih (fun x hx => h x (List.mem_cons_of_mem j hx)) o ho

/-- The `encryptWorker` analogue of `dRunFrom_all_reuse`. -/
theorem eRunFrom_all_reuse :
    ∀ jobs : List EJob, (∀ j ∈ jobs, j.hasE = true ∧ j.cmp = true) →
      ∀ o ∈ eRunFrom none jobs, o.transformed = false ∧ o.committed = true := by
  intro jobs
  induction jobs with
  | nil => intro _ o ho; simp [eRunFrom] at ho
  | cons j rest ih =>
    intro h o ho
    obtain ⟨h1, h2⟩ := h j (List.mem_cons_self j rest)
    simp only [eRunFrom, eStep, eErrStep, h1, h2, Bool.and_self, if_pos,
      Bool.not_true, Option.isNone_none, List.mem_cons] at ho
    rcases ho with ho | ho
    · subst ho; exact ⟨rfl, rfl⟩
    · exact ih (fun x hx => h x (List.mem_cons_of_mem j hx)) o ho

/-- C7: when every job in a batch has its existing output present and the
comparison predicate accepts it, a worker invokes the provider transform
zero times (every output record has `transformed = false`) and still
performs every commit (`committed = true`, i.e. `ReplaceNode` runs for
each of the N jobs — one output record per job). -/
theorem reuse_short_circuit (djobs : List DJob) (ejobs : List EJob)
    (hd : ∀ j ∈ djobs, j.hasD = true ∧ j.cmp = true)
    (he : ∀ j ∈ ejobs, j.hasE = true ∧ j.cmp = true) :
    (∀ o ∈ decryptWorkerRun djobs, o.transformed = false ∧ o.committed = true) ∧
    (∀ o ∈ encryptWorkerRun ejobs, o.transformed = false ∧ o.committed = true) ∧
    (decryptWorkerRun djobs).length = djobs.length ∧
    (encryptWorkerRun ejobs).length = ejobs.length :=
  ⟨dRunFrom_all_reuse djobs hd, eRunFrom_all_reuse ejobs he,
   dRunFrom_length djobs none, eRunFrom_length ejobs none⟩

/-- Witness for C7 at concrete one-job batches (the second job's
`resolveErr` oracle is non-nil, showing the transform is indeed never
consulted on the reuse path). -/
theorem reuse_short_circuit_witness :
    (∀ o ∈ decryptWorkerRun [(⟨true, true, none⟩ : DJob)],
      o.transformed = false ∧ o.committed = true) ∧
    (∀ o ∈ encryptWorkerRun [(⟨true, true, some (Err.transformE 9)⟩ : EJob)],
      o.transformed = false ∧ o.committed = true) ∧
    (decryptWorkerRun [(⟨true, true, none⟩ : DJob)]).length = 1 ∧
    (encryptWorkerRun [(⟨true, true, some (Err.transformE 9)⟩ : EJob)]).length = 1 :=
  reuse_short_circuit [⟨true, true, none⟩] [⟨true, true, some (Err.transformE 9)⟩]
    (by decide) (by decide)
